import Mathlib

/- Shallow embedding of src/prayer.go (eid-setf/prayer-go) and proofs about it.

   Modelling conventions:
   * Absolute instants and durations are integers counting nanoseconds, exactly
     as Go's time.Time instants and time.Duration (an int64 nanosecond count).
     All values that occur stay far below 2^63, so unbounded Int is used and the
     int64 overflow clamps inside Duration.Round are unreachable.
   * A Go time.Time in a fixed zone is modelled as (absolute nanoseconds since
     the Unix epoch, zone offset in seconds).  Calendar components are derived
     with the standard proleptic-Gregorian conversions, which agree with Go's
     time package.  Daylight-saving zones are out of scope: the program only
     manipulates fixed offsets parsed from "(+03)"-style suffixes, and the local
     zone is modelled as a fixed offset.
   * Go maps (decoded JSON objects) are association lists: the list order
     stands for the unspecified iteration order, so one map with two different
     iteration orders is two lists that are permutations of each other; a
     well-formed map has no duplicate key (keysNodup).
   * Go panics are Except.error values of GoPanic, one constructor per kind of
     runtime failure the source can hit.
   * The filesystem and the HTTP transport are an explicit environment: a store
     from file path to content and a fetch oracle from URL to response.  The
     JSON payload format is modelled already decoded (MonthData); its month
     entry is the "data" array, each element the day's "timings" object.
-/

open List

/-- Nanoseconds in one second (Go time.Second). -/
def nsPerSecond : Int := 1000000000

/-- Nanoseconds in one day. -/
def nsPerDay : Int := 86400 * nsPerSecond

/-- remindBefore = 5 * time.Minute from prayer.go, in nanoseconds. -/
def remindBefore : Int := 5 * 60 * nsPerSecond

/-- Proleptic-Gregorian civil date (year, month, day) from a count of days
since 1970-01-01, matching Go's time package calendar arithmetic. -/
def civilFromDays (z0 : Int) : Int × Int × Int :=
  let z := z0 + 719468
  let era := Int.fdiv z 146097
  let doe := z - era * 146097
  let yoe := Int.fdiv (doe - Int.fdiv doe 1460 + Int.fdiv doe 36524 - Int.fdiv doe 146096) 365
  let y := yoe + era * 400
  let doy := doe - (365 * yoe + Int.fdiv yoe 4 - Int.fdiv yoe 100)
  let mp := Int.fdiv (5 * doy + 2) 153
  let d := doy - Int.fdiv (153 * mp + 2) 5 + 1
  let m := mp + (if mp < 10 then 3 else -9)
  (y + (if m ≤ 2 then 1 else 0), m, d)

/-- Days since 1970-01-01 of a proleptic-Gregorian civil date (inverse of
civilFromDays on valid dates). -/
def daysFromCivil (y0 m d : Int) : Int :=
  let y := y0 - (if m ≤ 2 then 1 else 0)
  let era := Int.fdiv y 400
  let yoe := y - era * 400
  let doy := Int.fdiv (153 * (m + (if m > 2 then -3 else 9)) + 2) 5 + d - 1
  let doe := yoe * 365 + Int.fdiv yoe 4 - Int.fdiv yoe 100 + doy
  era * 146097 + doe - 719468

/-- A Go time.Time in a fixed zone: absolute instant (ns since the Unix epoch)
plus the zone offset in seconds east of UTC. -/
structure GoTime where
  absNs : Int
  offSec : Int
deriving DecidableEq

/-- Local calendar day count of an instant (floor of local seconds / 86400). -/
def localDays (t : GoTime) : Int :=
  Int.fdiv (Int.fdiv t.absNs nsPerSecond + t.offSec) 86400

/-- t.Year() of prayer.go's time values. -/
def yearOf (t : GoTime) : Int := (civilFromDays (localDays t)).1

/-- int(t.Month()). -/
def monthOf (t : GoTime) : Int := (civilFromDays (localDays t)).2.1

/-- t.Day() (1-based day of month). -/
def dayOf (t : GoTime) : Int := (civilFromDays (localDays t)).2.2

/-- time.Now().AddDate(0, 0, 1): one wall-clock day later.  In a fixed-offset
zone this is exactly 86400 seconds later. -/
def addOneDay (t : GoTime) : GoTime := ⟨t.absNs + nsPerDay, t.offSec⟩

/-- One kind of Go panic per failure the modelled source can hit. -/
inductive GoPanic where
  | parseFailure
  | indexRange
  | fetchFailure
  | storageFailure
deriving DecidableEq

/-- The Prayer struct of prayer.go: a name and an absolute timestamp. -/
structure Prayer where
  Name : String
  Time : Int
deriving DecidableEq

instance : Inhabited Prayer := ⟨⟨"", 0⟩⟩

/-- Go's zero value for Prayer, as left in the unwritten slots of the
make(Prayers, 5) slice.  (Only the empty Name matters: Prayers.Less reads
Name[0] and a zero element always makes the sort panic before any timestamp
is used, so the zero Time is irrelevant and set to 0.) -/
def zeroPrayer : Prayer := ⟨"", 0⟩

/-- strings.IndexByte on a list of (ASCII) characters: index of the first
occurrence, or -1. -/
def indexByteChars : List Char → Char → Int
  | [], _ => -1
  | c :: rest, x =>
    if c = x then 0
    else
      let r := indexByteChars rest x
      if r < 0 then -1 else r + 1

/-- Rank used by Prayers.Less: strings.IndexByte("FDAMI", Name[0]).  The Less
method panics on an empty name (Name[0] out of range); rank is only consulted
for nonempty names, see sortGoCheck. -/
def rankOfName (s : String) : Int :=
  indexByteChars "FDAMI".data (s.data.headD ' ')

/-- Prayers.Less(i, j) of prayer.go as a non-strict order (the Go sort moves an
element left exactly while Less holds strictly, which for the distinct ranks
that occur is the same ordering). -/
def prayerLe (p q : Prayer) : Prop := rankOfName p.Name ≤ rankOfName q.Name

/-- Strict version of prayerLe. -/
def prayerLt (p q : Prayer) : Prop := rankOfName p.Name < rankOfName q.Name

instance : DecidableRel prayerLe :=
  fun p q => inferInstanceAs (Decidable (rankOfName p.Name ≤ rankOfName q.Name))

instance : DecidableRel prayerLt :=
  fun p q => inferInstanceAs (Decidable (rankOfName p.Name < rankOfName q.Name))

instance : IsTotal Prayer prayerLe := ⟨fun p q => Int.le_total _ _⟩

instance : IsTrans Prayer prayerLe := ⟨fun _ _ _ h1 h2 => le_trans h1 h2⟩

instance : IsAntisymm Prayer prayerLt :=
  ⟨fun _ _ h1 h2 => absurd (lt_trans h1 h2) (lt_irrefl _)⟩

instance : IsAntisymm Int (· < ·) :=
  ⟨fun _ _ h1 h2 => absurd (lt_trans h1 h2) (lt_irrefl _)⟩

/-- sort.Sort(prayers) on the 5-element slice: stable insertion sort by the
rank table, as Go's sort package performs for slices of length below 12. -/
def sortPrayers (l : List Prayer) : List Prayer := l.insertionSort prayerLe

/-- The five recognized prayer names, in the canonical rank order. -/
def fiveNames : List String := ["Fajr", "Dhuhr", "Asr", "Maghrib", "Isha"]

/-- The key test of FilterPrayers. -/
def isPrayerName (k : String) : Bool :=
  k == "Fajr" || k == "Dhuhr" || k == "Asr" || k == "Maghrib" || k == "Isha"

/-- FilterPrayers of prayer.go: keep only the five recognized keys, values
unchanged.  (Go asserts each interface value to string; the timings objects
handled by the claims are string-valued, so values are Strings here.) -/
def FilterPrayers (pm : List (String × String)) : List (String × String) :=
  pm.filter fun kv => isPrayerName kv.1

/-- Value of one decimal digit character, or none. -/
def digitVal (c : Char) : Option Nat :=
  if c.isDigit then some (c.toNat - 48) else none

/-- Sign character of a numeric time zone. -/
def signVal (c : Char) : Option Int :=
  if c = '+' then some 1 else if c = '-' then some (-1) else none

/-- Rest of the layout "15:04 (-07)" after the hour: exactly
":mm (shh)" with two-digit minute, a sign and a two-digit offset hour, then
end of input.  Returns (hour, minute, zone offset in seconds). -/
def parseAfterHour (hh : Nat) : List Char → Option (Int × Int × Int)
  | ':' :: m1 :: m2 :: ' ' :: '(' :: sg :: o1 :: o2 :: ')' :: [] =>
    match digitVal m1, digitVal m2, signVal sg, digitVal o1, digitVal o2 with
    | some a, some b, some s, some c, some d =>
      let mm := 10 * a + b
      if hh < 24 ∧ mm < 60 then
        some ((hh : Int), (mm : Int), s * (((10 * c + d : Nat) : Int) * 3600))
      else none
    | _, _, _, _, _ => none
  | _ => none

/-- time.Parse("15:04 (-07)", v) of prayer.go, reduced to the data the program
uses: the wall clock hour and minute and the fixed zone offset.  The hour
matches one or two digits (Go's non-padded "15"), the minute exactly two, and
Go's range checks on hour and minute are included. -/
def parseTimeStr (v : String) : Option (Int × Int × Int) :=
  match v.data with
  | c1 :: c2 :: rest =>
    match digitVal c1, digitVal c2 with
    | some d1, some d2 => parseAfterHour (10 * d1 + d2) rest
    | some d1, none => parseAfterHour d1 (c2 :: rest)
    | none, _ => none
  | _ => none

/-- Absolute instant of parsed.AddDate(t.Year(), int(t.Month())-1, t.Day()-1):
the wall clock (hour, minute) on t's calendar date in the parsed fixed zone.
p is (hour, minute, zone offset seconds). -/
def timeFromParts (t : GoTime) (p : Int × Int × Int) : Int :=
  (daysFromCivil (yearOf t) (monthOf t) (dayOf t) * 86400
    + p.1 * 3600 + p.2.1 * 60 - p.2.2) * nsPerSecond

/-- The Prayer a successfully parsed map entry is mapped to (unparseable
entries make the Go loop panic before any Prayer is built; the 0 branch is a
junk value that no result ever contains). -/
def prayerFromEntry (t : GoTime) (kv : String × String) : Prayer :=
  ⟨kv.1, match parseTimeStr kv.2 with
         | some p => timeFromParts t p
         | none => 0⟩

/-- The loop of MapToPrayers: iterate the map entries (in iteration order),
parse each value (panicking on failure) and write the Prayer into slot i of
the fixed 5-element slice (panicking when i reaches 5). -/
def mapToPrayersCore (t : GoTime) :
    List (String × String) → Nat → List Prayer → Except GoPanic (List Prayer)
  | [], _, arr => .ok arr
  | kv :: rest, i, arr =>
    match parseTimeStr kv.2 with
    | none => .error .parseFailure
    | some p =>
      if i < 5 then mapToPrayersCore t rest (i + 1) (arr.set i ⟨kv.1, timeFromParts t p⟩)
      else .error .indexRange

/-- sort.Sort on the filled 5-element slice.  Go's insertion sort on a slice of
length 5 evaluates Name[0] of every element, so it panics (string index out of
range) exactly when some element still has the zero value's empty Name; when
all names are nonempty it sorts by the rank table. -/
def sortGoCheck (arr : List Prayer) : Except GoPanic (List Prayer) :=
  if arr.all fun p => decide (p.Name ≠ "") then .ok (sortPrayers arr)
  else .error .indexRange

/-- MapToPrayers of prayer.go on a map given in iteration order. -/
def MapToPrayers (m : List (String × String)) (t : GoTime) : Except GoPanic (List Prayer) := do
  let arr ← mapToPrayersCore t m 0 (List.replicate 5 zeroPrayer)
  sortGoCheck arr

/-- The spec's Parse on one day's timings object: FilterPrayers then
MapToPrayers (prayer.go lines 149-151). -/
def ParseDay (dayObj : List (String × String)) (t : GoTime) : Except GoPanic (List Prayer) :=
  MapToPrayers (FilterPrayers dayObj) t

/-- Decoded month payload: the "data" array, one timings object per day of the
month (0-based index day-1). -/
abbrev MonthData : Type := List (List (String × String))

/-- The spec's Parse(rawPayload, date): index the day entry (a slice index out
of range panics when the day is absent), then filter and map. -/
def ParseSchedule (month : MonthData) (t : GoTime) : Except GoPanic (List Prayer) :=
  match List.get? (α := List (String × String)) month (dayOf t - 1).toNat with
  | none => .error .indexRange
  | some dayObj => ParseDay dayObj t

/-- A well-formed Go map: no duplicate keys. -/
def keysNodup (l : List (String × String)) : Prop := (l.map Prod.fst).Nodup

instance (l : List (String × String)) : Decidable (keysNodup l) :=
  inferInstanceAs (Decidable ((l.map Prod.fst).Nodup))

/-- Result of one http.Get: whether the transport failed (err != nil), the
HTTP status code, and the response body. -/
structure FetchResult (α : Type) where
  failed : Bool
  status : Nat
  body : α

/-- The external world of DownloadTimings: the persistent store (filesystem,
path to content) and the remote provider (URL to response). -/
structure Env (α : Type) where
  store : String → Option α
  fetch : String → FetchResult α

/-- Configured constants of prayer.go.  The float latitude/longitude are only
ever printed with %v into the URL, so they are carried as the strings that
printing produces. -/
def apiUrl : String := "https://api.aladhan.com/v1/calendar"

def latitudeStr : String := "30.983334"

def longitudeStr : String := "41.016666"

def methodNum : Int := 4

/-- Left zero padding of a nonnegative integer to the given width. -/
def padInt (n : Int) (w : Nat) : String :=
  let s := toString n.toNat
  String.mk (List.replicate (w - s.length) '0') ++ s

/-- fmt.Sprintf("%vtimings-%v.json", timingsDir, t.Format(time.DateOnly)):
one cache file per calendar date. -/
def timingsPathFor (t : GoTime) : String :=
  "./timings-" ++ padInt (yearOf t) 4 ++ "-" ++ padInt (monthOf t) 2 ++ "-"
    ++ padInt (dayOf t) 2 ++ ".json"

/-- The request URL of DownloadTimings: calendar endpoint for t's year and
month, with the configured latitude, longitude and calculation method. -/
def requestUrlFor (t : GoTime) : String :=
  apiUrl ++ "/" ++ toString (yearOf t) ++ "/" ++ toString (monthOf t)
    ++ "?latitude=" ++ latitudeStr ++ "&longitude=" ++ longitudeStr
    ++ "&method=" ++ toString methodNum

/-- DownloadTimings of prayer.go: if the cache file for t's date exists, return
its path untouched; otherwise fetch the month calendar (panicking only when
the transport itself fails - the status code is never inspected) and persist
the body verbatim under the date's path. -/
def DownloadTimings {α : Type} (t : GoTime) (env : Env α) : Except GoPanic (String × Env α) :=
  let path := timingsPathFor t
  match env.store path with
  | some _ => .ok (path, env)
  | none =>
    let resp := env.fetch (requestUrlFor t)
    if resp.failed then .error .fetchFailure
    else
      .ok (path, { env with store := fun k => if k = path then some resp.body else env.store k })

/-- PrayerTimings of prayer.go: download (or reuse) the cached month, read it
back (a missing or unreadable file is the os.Open/ReadAll panic), and parse
the target day's schedule.  json.Unmarshal is the identity here because the
store holds payloads in decoded form. -/
def PrayerTimings (t : GoTime) (env : Env MonthData) :
    Except GoPanic (List Prayer × Env MonthData) := do
  let (path, env') ← DownloadTimings t env
  match env'.store path with
  | none => .error .storageFailure
  | some payload => do
    let s ← ParseSchedule payload t
    .ok (s, env')

/-- The scan loop of NextPrayer: first held event with time.Now().Before(time),
i.e. strictly after now. -/
def nextInList (nowNs : Int) : List Prayer → Option Prayer
  | [] => none
  | p :: rest => if nowNs < p.Time then some p else nextInList nowNs rest

/-- Go's copy(dst, src): overwrite the first min(len dst, len src) elements of
dst with src, keeping dst's length. -/
def listCopy {α : Type} (dst src : List α) : List α :=
  src.take dst.length ++ dst.drop src.length

/-- NextPrayer of prayer.go.  Returns the event, the timingsChanged flag, the
held schedule after the call (Go mutates the caller's slice via copy), and the
environment after any rollover fetch. -/
def NextPrayer (now : GoTime) (prayers : List Prayer) (env : Env MonthData) :
    Except GoPanic ((Prayer × Bool) × List Prayer × Env MonthData) :=
  match nextInList now.absNs prayers with
  | some p => .ok ((p, false), prayers, env)
  | none => do
    let (newTimings, env') ← PrayerTimings (addOneDay now) env
    let prayers' := listCopy prayers newTimings
    match prayers' with
    | [] => .error .indexRange
    | p :: _ => .ok ((p, true), prayers', env')

/-- Duration.Round of Go's time package (half away from zero), on unbounded
integers; the int64 overflow clamps are unreachable at the durations the
program handles.  Go's truncated remainder is expressed through emod of the
absolute value, which agrees with it on both sign cases. -/
def durRound (d m : Int) : Int :=
  if m ≤ 0 then d
  else if d < 0 then
    if (-d) % m + (-d) % m < m then d + (-d) % m else d - m + (-d) % m
  else
    if d % m + d % m < m then d - d % m else d + m - d % m

/-- Which notifications one timer tick fires. -/
structure NotifyFires where
  pre : Bool
  arrival : Bool
deriving DecidableEq

/-- The notification conditions of the timer ACTION_CB (prayer.go lines
222-229): rem := np.Time.Sub(now).Round(time.Second); the tasbih pre-reminder
plays when rem == remindBefore and the adhan when rem == time.Second. -/
def tickNotifications (npTimeNs nowNs : Int) : NotifyFires :=
  let rem := durRound (npTimeNs - nowNs) nsPerSecond
  ⟨decide (rem = remindBefore), decide (rem = nsPerSecond)⟩

/-- One tick of the timer callback: poll NextPrayer, then evaluate both
notification conditions against the returned next event. -/
def TickGui (now : GoTime) (prayers : List Prayer) (env : Env MonthData) :
    Except GoPanic ((NotifyFires × Prayer × Bool) × List Prayer × Env MonthData) := do
  let ((np, changed), prayers', env') ← NextPrayer now prayers env
  .ok ((tickNotifications np.Time now.absNs, np, changed), prayers', env')

/-- Payloads an Env can hold are well-formed maps (Go maps cannot have
duplicate keys, association lists can; this restores the Go invariant). -/
def WfEnv (env : Env MonthData) : Prop :=
  (∀ p pl, env.store p = some pl → ∀ dob ∈ pl, keysNodup dob) ∧
  (∀ u, ∀ dob ∈ (env.fetch u).body, keysNodup dob)

/-- Canonical five-event schedule for date t with the given parsed
(hour, minute, offset) triples, in rank order. -/
def canonicalSchedule (t : GoTime) (pF pD pA pM pI : Int × Int × Int) : List Prayer :=
  [⟨"Fajr", timeFromParts t pF⟩, ⟨"Dhuhr", timeFromParts t pD⟩,
   ⟨"Asr", timeFromParts t pA⟩, ⟨"Maghrib", timeFromParts t pM⟩,
   ⟨"Isha", timeFromParts t pI⟩]

/-- The successive slice writes prayers[i] = ...; i++ of the MapToPrayers
loop, as one function. -/
def writeFrom : List Prayer → Nat → List Prayer → List Prayer
  | arr, _, [] => arr
  | arr, i, x :: xs => writeFrom (arr.set i x) (i + 1) xs

/-- Sample instant 2024-06-01T12:00:00+03:00 (19875 days after the epoch, 09:00 UTC). -/
def sampleNoon : GoTime := ⟨(19875 * 86400 + 9 * 3600) * nsPerSecond, 10800⟩

/-- A sample timings object for 2024-06-01 in a +03 zone, with a non-prayer
key and scrambled key order. -/
def sampleDay : List (String × String) :=
  [("Sunrise", "06:00 (+03)"), ("Isha", "19:50 (+03)"), ("Fajr", "04:30 (+03)"),
   ("Dhuhr", "11:45 (+03)"), ("Maghrib", "18:20 (+03)"), ("Asr", "15:10 (+03)")]

/-- A one-day month payload holding sampleDay at day 1. -/
def sampleMonth : MonthData := [sampleDay]

/-- Sample day object with the Isha key missing. -/
def sampleDayMissing : List (String × String) :=
  [("Sunrise", "06:00 (+03)"), ("Fajr", "04:30 (+03)"), ("Dhuhr", "11:45 (+03)"),
   ("Maghrib", "18:20 (+03)"), ("Asr", "15:10 (+03)")]

/-- Sample instant 2024-06-01T21:00:00+03:00, after the sample day's Isha. -/
def sampleEvening : GoTime := ⟨(19875 * 86400 + 18 * 3600) * nsPerSecond, 10800⟩

/-- A two-day month payload whose day-2 entry is the sample timings. -/
def sampleMonthTwo : MonthData := [[], sampleDay]

/-- Environment whose persisted cache already holds tomorrow's payload. -/
def sampleEnvRoll : Env MonthData :=
  ⟨fun k => if k = "./timings-2024-06-02.json" then some sampleMonthTwo else none,
   fun _ => ⟨true, 0, []⟩⟩

/-- Timings object in a +12 zone. -/
def sampleDayPlusTwelve : List (String × String) :=
  [("Fajr", "04:30 (+12)"), ("Dhuhr", "11:45 (+12)"), ("Asr", "15:10 (+12)"),
   ("Maghrib", "18:20 (+12)"), ("Isha", "19:50 (+12)")]

/-- An 11-day month payload whose day-11 entry is sampleDayPlusTwelve. -/
def sampleMonthEleven : MonthData :=
  [[], [], [], [], [], [], [], [], [], [], sampleDayPlusTwelve]

/-- Sample instant 2024-06-10T22:00:00-11:00 (09:00 UTC of 2024-06-11): the local date is
still 06-10, but every 06-11 event of the +12-zone payload is already past. -/
def sampleLateNow : GoTime := ⟨(19885 * 86400 + 9 * 3600) * nsPerSecond, -39600⟩

/-- Cache already holding the 2024-06-11 payload. -/
def sampleEnvLate : Env MonthData :=
  ⟨fun k => if k = "./timings-2024-06-11.json" then some sampleMonthEleven else none,
   fun _ => ⟨true, 0, []⟩⟩

/-- An empty environment: nothing cached, every fetch fails. -/
def sampleEnvEmpty : Env MonthData := ⟨fun _ => none, fun _ => ⟨true, 0, []⟩⟩

/-- A tick 0.4 seconds before the sample Fajr event. -/
def sampleJustBefore : GoTime :=
  ⟨(19875 * 86400 + 5400) * nsPerSecond - 400000000, 10800⟩

/- ------------------------------------------------------------------ -/
/- Helper lemmas                                                       -/
/- ------------------------------------------------------------------ -/

theorem keys_nodup_val_unique {l : List (String × String)} (h : keysNodup l)
    {k v v' : String} (h1 : (k, v) ∈ l) (h2 : (k, v') ∈ l) : v = v' := by
  induction l with
  | nil => cases h1
  | cons hd tl ih =>
    have h0 : hd.1 ∉ tl.map Prod.fst ∧ (tl.map Prod.fst).Nodup := by
      simpa [keysNodup] using h
    rcases List.mem_cons.mp h1 with e1 | m1
    · rcases List.mem_cons.mp h2 with e2 | m2
      · rw [← e1] at e2
        simpa using (congrArg Prod.snd e2).symm
      · have hx : k ∈ tl.map Prod.fst := List.mem_map_of_mem Prod.fst m2
        have hk : hd.1 = k := by rw [← e1]
        exact absurd hx (hk ▸ h0.1)
    · rcases List.mem_cons.mp h2 with e2 | m2
      · have hx : k ∈ tl.map Prod.fst := List.mem_map_of_mem Prod.fst m1
        have hk : hd.1 = k := by rw [← e2]
        exact absurd hx (hk ▸ h0.1)
      · exact ih h0.2 m1 m2

theorem isPrayerName_iff {k : String} : isPrayerName k = true ↔ k ∈ fiveNames := by
  simp only [isPrayerName, Bool.or_eq_true, beq_iff_eq, fiveNames, List.mem_cons,
    List.not_mem_nil, or_false]
  tauto

theorem mem_five_ne_empty {k : String} (h : k ∈ fiveNames) : k ≠ "" := by
  simp only [fiveNames, List.mem_cons, List.not_mem_nil, or_false] at h
  rcases h with rfl | rfl | rfl | rfl | rfl <;> decide

theorem rank_inj_on_five {a b : String} (ha : a ∈ fiveNames) (hb : b ∈ fiveNames)
    (hne : a ≠ b) : rankOfName a ≠ rankOfName b := by
  simp only [fiveNames, List.mem_cons, List.not_mem_nil, or_false] at ha hb
  rcases ha with rfl | rfl | rfl | rfl | rfl <;>
    rcases hb with rfl | rfl | rfl | rfl | rfl <;>
    first
      | exact absurd rfl hne
      | decide

theorem writeFrom_length : ∀ (xs : List Prayer) (i : Nat) (arr : List Prayer),
    (writeFrom arr i xs).length = arr.length := by
  intro xs
  induction xs with
  | nil => intro i arr; rfl
  | cons x xs ih => intro i arr; simp [writeFrom, ih, List.length_set]

theorem take_succ_set : ∀ (arr : List Prayer) (i : Nat) (x : Prayer), i < arr.length →
    (arr.set i x).take (i + 1) = arr.take i ++ [x] := by
  intro arr
  induction arr with
  | nil => intro i x h; cases h
  | cons a as ih =>
    intro i x h
    cases i with
    | zero => simp
    | succ j =>
      simp only [List.set_cons_succ, List.take_succ_cons, List.take]
      rw [ih j x (by simpa using h)]
      rfl

theorem writeFrom_full : ∀ (xs : List Prayer) (i : Nat) (arr : List Prayer),
    i + xs.length = arr.length → writeFrom arr i xs = arr.take i ++ xs := by
  intro xs
  induction xs with
  | nil =>
    intro i arr h
    simp only [List.length_nil, Nat.add_zero] at h
    simp [writeFrom, h, List.take_of_length_le (le_of_eq h.symm)]
  | cons x xs ih =>
    intro i arr h
    simp only [List.length_cons] at h
    have hi : i < arr.length := by omega
    rw [writeFrom, ih (i + 1) (arr.set i x) (by simp [List.length_set]; omega)]
    rw [take_succ_set arr i x hi]
    simp

theorem writeFrom_get_ge : ∀ (xs : List Prayer) (i : Nat) (arr : List Prayer) (j : Nat),
    i + xs.length ≤ j → (writeFrom arr i xs).get? j = arr.get? j := by
  intro xs
  induction xs with
  | nil => intro i arr j _; rfl
  | cons x xs ih =>
    intro i arr j h
    simp only [List.length_cons] at h
    rw [writeFrom, ih (i + 1) (arr.set i x) j (by omega)]
    exact List.get?_set_ne x arr (by omega)

theorem mapToPrayersCore_ok (t : GoTime) :
    ∀ (l : List (String × String)) (i : Nat) (arr : List Prayer),
      i + l.length ≤ 5 → (∀ kv ∈ l, (parseTimeStr kv.2).isSome) →
      mapToPrayersCore t l i arr = .ok (writeFrom arr i (l.map (prayerFromEntry t))) := by
  intro l
  induction l with
  | nil => intro i arr _ _; rfl
  | cons kv rest ih =>
    intro i arr hle hall
    obtain ⟨p, hp⟩ := Option.isSome_iff_exists.mp (hall kv (List.mem_cons_self ..))
    have hi : i < 5 := by simp only [List.length_cons] at hle; omega
    have hmk : prayerFromEntry t kv = ⟨kv.1, timeFromParts t p⟩ := by
      simp [prayerFromEntry, hp]
    simp only [mapToPrayersCore, hp, if_pos hi, List.map_cons, writeFrom, hmk]
    exact ih (i + 1) (arr.set i ⟨kv.1, timeFromParts t p⟩)
      (by simp only [List.length_cons] at hle; omega)
      (fun kv' h => hall kv' (List.mem_cons_of_mem _ h))

theorem mapToPrayersCore_err (t : GoTime) :
    ∀ (l : List (String × String)) (i : Nat) (arr : List Prayer),
      i + l.length ≤ 5 → (∃ kv ∈ l, parseTimeStr kv.2 = none) →
      mapToPrayersCore t l i arr = .error .parseFailure := by
  intro l
  induction l with
  | nil => rintro i arr _ ⟨kv, h, _⟩; cases h
  | cons kv rest ih =>
    rintro i arr hle ⟨kv', hmem, hbad⟩
    have hi : i < 5 := by simp only [List.length_cons] at hle; omega
    rcases List.mem_cons.mp hmem with rfl | hmem'
    · simp [mapToPrayersCore, hbad]
    · cases hp : parseTimeStr kv.2 with
      | none => simp [mapToPrayersCore, hp]
      | some p =>
        simp only [mapToPrayersCore, hp, if_pos hi]
        exact ih (i + 1) _ (by simp only [List.length_cons] at hle; omega) ⟨kv', hmem', hbad⟩

theorem mapToPrayersCore_ok_inv (t : GoTime) :
    ∀ (l : List (String × String)) (i : Nat) (arr : List Prayer) (res : List Prayer),
      mapToPrayersCore t l i arr = .ok res →
      (∀ kv ∈ l, (parseTimeStr kv.2).isSome) ∧ (l = [] ∨ i + l.length ≤ 5) := by
  intro l
  induction l with
  | nil => intro i arr res _; exact ⟨fun kv h => absurd h (List.not_mem_nil kv), Or.inl rfl⟩
  | cons kv rest ih =>
    intro i arr res h
    cases hp : parseTimeStr kv.2 with
    | none => simp only [mapToPrayersCore, hp] at h; cases h
    | some p =>
      simp only [mapToPrayersCore, hp] at h
      by_cases hi : i < 5
      · rw [if_pos hi] at h
        obtain ⟨hall, hlen⟩ := ih (i + 1) _ res h
        refine ⟨?_, Or.inr ?_⟩
        · intro kv' hmem
          rcases List.mem_cons.mp hmem with rfl | hmem'
          · simp [hp]
          · exact hall kv' hmem'
        · rcases hlen with rfl | hlen
          · simp only [List.length_nil, List.length_cons]; omega
          · simp only [List.length_cons]; omega
      · rw [if_neg hi] at h; simp at h

theorem sortGoCheck_ok_of_names (arr : List Prayer) (h : ∀ p ∈ arr, p.Name ≠ "") :
    sortGoCheck arr = .ok (sortPrayers arr) := by
  rw [sortGoCheck, if_pos]
  rw [List.all_eq_true]
  intro p hp
  exact decide_eq_true (h p hp)

theorem sortGoCheck_err_of_zero (arr : List Prayer) (h : zeroPrayer ∈ arr) :
    sortGoCheck arr = .error .indexRange := by
  rw [sortGoCheck, if_neg]
  rw [List.all_eq_true]
  intro hall
  have := hall zeroPrayer h
  simp [zeroPrayer] at this

theorem eq_of_perm_sorted_ranks {l₁ l₂ : List Prayer} (hp : l₁.Perm l₂)
    (hs₁ : l₁.Pairwise prayerLe) (hs₂ : l₂.Pairwise prayerLe)
    (hnd : (l₁.map fun p => rankOfName p.Name).Nodup) : l₁ = l₂ := by
  have hnd₂ : (l₂.map fun p => rankOfName p.Name).Nodup := ((hp.map _).nodup_iff).mp hnd
  have hne₁ : l₁.Pairwise fun p q => rankOfName p.Name ≠ rankOfName q.Name :=
    List.pairwise_map.mp hnd
  have hne₂ : l₂.Pairwise fun p q => rankOfName p.Name ≠ rankOfName q.Name :=
    List.pairwise_map.mp hnd₂
  have hlt₁ : l₁.Pairwise prayerLt :=
    (hs₁.and hne₁).imp fun h => lt_of_le_of_ne h.1 h.2
  have hlt₂ : l₂.Pairwise prayerLt :=
    (hs₂.and hne₂).imp fun h => lt_of_le_of_ne h.1 h.2
  exact List.eq_of_perm_of_sorted (r := prayerLt) hp hlt₁ hlt₂

theorem sortPrayers_eq_of_perm {l m : List Prayer} (hp : l.Perm m)
    (hm : m.Pairwise prayerLt) : sortPrayers l = m := by
  have hperm : (sortPrayers l).Perm m := (List.perm_insertionSort prayerLe l).trans hp
  have hndm : (m.map fun p => rankOfName p.Name).Nodup :=
    List.pairwise_map.mpr (hm.imp fun h => ne_of_lt h)
  have hnd : ((sortPrayers l).map fun p => rankOfName p.Name).Nodup :=
    ((hperm.map _).nodup_iff).mpr hndm
  exact eq_of_perm_sorted_ranks hperm (List.sorted_insertionSort prayerLe l)
    (hm.imp fun h => le_of_lt h) hnd

theorem mem_filterPrayers {pm : List (String × String)} {kv : String × String}
    (h : kv ∈ FilterPrayers pm) : kv ∈ pm ∧ kv.1 ∈ fiveNames := by
  have h' := List.mem_filter.mp h
  exact ⟨h'.1, isPrayerName_iff.mp h'.2⟩

theorem keys_length_le_five {l : List (String × String)} (hnd : keysNodup l)
    (h : ∀ kv ∈ l, kv.1 ∈ fiveNames) : l.length ≤ 5 := by
  have hsub : (l.map Prod.fst).toFinset ⊆ fiveNames.toFinset := by
    intro k hk
    rw [List.mem_toFinset] at hk ⊢
    obtain ⟨kv, hkv, rfl⟩ := List.mem_map.mp hk
    exact h kv hkv
  have hcard : (l.map Prod.fst).toFinset.card ≤ fiveNames.toFinset.card :=
    Finset.card_le_card hsub
  rw [List.toFinset_card_of_nodup hnd] at hcard
  simpa using hcard

theorem keys_full_of_length_five {l : List (String × String)} (hnd : keysNodup l)
    (h : ∀ kv ∈ l, kv.1 ∈ fiveNames) (hlen : l.length = 5) :
    ∀ k ∈ fiveNames, ∃ v, (k, v) ∈ l := by
  have hsub : (l.map Prod.fst).toFinset ⊆ fiveNames.toFinset := by
    intro k hk
    rw [List.mem_toFinset] at hk ⊢
    obtain ⟨kv, hkv, rfl⟩ := List.mem_map.mp hk
    exact h kv hkv
  have heq : (l.map Prod.fst).toFinset = fiveNames.toFinset := by
    apply Finset.eq_of_subset_of_card_le hsub
    rw [List.toFinset_card_of_nodup hnd]
    simp only [List.length_map, hlen]
    decide
  intro k hk
  have hk' : k ∈ l.map Prod.fst := by
    rw [← List.mem_toFinset, heq]
    exact List.mem_toFinset.mpr hk
  obtain ⟨kv, hkv, hfst⟩ := List.mem_map.mp hk'
  exact ⟨kv.2, by rw [← hfst]; exact hkv⟩

theorem mapToPrayers_ok {m : List (String × String)} {t : GoTime}
    (hlen : m.length = 5) (hall : ∀ kv ∈ m, (parseTimeStr kv.2).isSome)
    (hname : ∀ kv ∈ m, kv.1 ≠ "") :
    MapToPrayers m t = .ok (sortPrayers (m.map (prayerFromEntry t))) := by
  have hw : writeFrom (List.replicate 5 zeroPrayer) 0 (m.map (prayerFromEntry t))
      = m.map (prayerFromEntry t) := by
    rw [writeFrom_full _ 0 _ (by simp [hlen])]
    simp
  have hck : sortGoCheck (m.map (prayerFromEntry t))
      = .ok (sortPrayers (m.map (prayerFromEntry t))) := by
    apply sortGoCheck_ok_of_names
    intro p hp
    obtain ⟨kv, hkv, rfl⟩ := List.mem_map.mp hp
    simpa [prayerFromEntry] using hname kv hkv
  rw [MapToPrayers, mapToPrayersCore_ok t m 0 (List.replicate 5 zeroPrayer) (by omega) hall, hw]
  exact hck

theorem mapToPrayers_ok_inv {m : List (String × String)} {t : GoTime} {s : List Prayer}
    (h : MapToPrayers m t = .ok s) :
    m.length = 5 ∧ (∀ kv ∈ m, (parseTimeStr kv.2).isSome) ∧
      s = sortPrayers (m.map (prayerFromEntry t)) := by
  rw [MapToPrayers] at h
  cases hc : mapToPrayersCore t m 0 (List.replicate 5 zeroPrayer) with
  | error e => rw [hc] at h; cases h
  | ok res =>
    rw [hc] at h
    have h : sortGoCheck res = .ok s := h
    obtain ⟨hall, hlen5⟩ := mapToPrayersCore_ok_inv t m 0 _ res hc
    have hle : m.length ≤ 5 := by
      rcases hlen5 with rfl | hle
      · simp
      · omega
    have hres : res = writeFrom (List.replicate 5 zeroPrayer) 0 (m.map (prayerFromEntry t)) := by
      have hok := mapToPrayersCore_ok t m 0 (List.replicate 5 zeroPrayer) (by omega) hall
      rw [hok] at hc
      exact (Except.ok.inj hc).symm
    by_cases hfive : m.length = 5
    · refine ⟨hfive, hall, ?_⟩
      rw [writeFrom_full _ 0 _ (by simp [hfive])] at hres
      simp only [List.take_zero, List.nil_append] at hres
      rw [hres, sortGoCheck] at h
      by_cases hck : (m.map (prayerFromEntry t)).all fun p => decide (p.Name ≠ "")
      · rw [if_pos hck] at h
        exact (Except.ok.inj h).symm
      · rw [if_neg hck] at h
        cases h
    · exfalso
      have h4 : (m.map (prayerFromEntry t)).length ≤ 4 := by simp; omega
      have hz : res.get? 4 = some zeroPrayer := by
        rw [hres, writeFrom_get_ge _ 0 _ 4 (by omega)]
        rfl
      have hzmem : zeroPrayer ∈ res := List.get?_mem hz
      rw [sortGoCheck_err_of_zero res hzmem] at h
      cases h

theorem filterPrayers_perm_five {dob : List (String × String)} {vF vD vA vM vI : String}
    (hnd : keysNodup dob)
    (hF : ("Fajr", vF) ∈ dob) (hD : ("Dhuhr", vD) ∈ dob) (hA : ("Asr", vA) ∈ dob)
    (hM : ("Maghrib", vM) ∈ dob) (hI : ("Isha", vI) ∈ dob) :
    (FilterPrayers dob).Perm
      [("Fajr", vF), ("Dhuhr", vD), ("Asr", vA), ("Maghrib", vM), ("Isha", vI)] := by
  apply List.perm_of_nodup_nodup_toFinset_eq
  · exact (hnd.of_map Prod.fst).filter _
  · refine List.Nodup.of_map Prod.fst ?_
    simp only [List.map_cons, List.map_nil]
    decide
  · ext x
    obtain ⟨k, v⟩ := x
    simp only [List.mem_toFinset, FilterPrayers, List.mem_filter, List.mem_cons,
      List.not_mem_nil, or_false, Prod.mk.injEq]
    constructor
    · rintro ⟨hmem, hname⟩
      have hk : k ∈ fiveNames := isPrayerName_iff.mp hname
      simp only [fiveNames, List.mem_cons, List.not_mem_nil, or_false] at hk
      rcases hk with rfl | rfl | rfl | rfl | rfl
      · exact Or.inl ⟨rfl, keys_nodup_val_unique hnd hmem hF⟩
      · exact Or.inr (Or.inl ⟨rfl, keys_nodup_val_unique hnd hmem hD⟩)
      · exact Or.inr (Or.inr (Or.inl ⟨rfl, keys_nodup_val_unique hnd hmem hA⟩))
      · exact Or.inr (Or.inr (Or.inr (Or.inl ⟨rfl, keys_nodup_val_unique hnd hmem hM⟩)))
      · exact Or.inr (Or.inr (Or.inr (Or.inr ⟨rfl, keys_nodup_val_unique hnd hmem hI⟩)))
    · rintro (⟨rfl, rfl⟩ | ⟨rfl, rfl⟩ | ⟨rfl, rfl⟩ | ⟨rfl, rfl⟩ | ⟨rfl, rfl⟩)
      · exact ⟨hF, by decide⟩
      · exact ⟨hD, by decide⟩
      · exact ⟨hA, by decide⟩
      · exact ⟨hM, by decide⟩
      · exact ⟨hI, by decide⟩

theorem ranks_nodup_of_keys {m : List (String × String)} {t : GoTime}
    (hnd : keysNodup m) (h : ∀ kv ∈ m, kv.1 ∈ fiveNames) :
    ((m.map (prayerFromEntry t)).map fun p => rankOfName p.Name).Nodup := by
  have hmap : ((m.map (prayerFromEntry t)).map fun p => rankOfName p.Name)
      = m.map fun kv => rankOfName kv.1 := by
    rw [List.map_map]
    rfl
  rw [hmap]
  have hpw : m.Pairwise fun kv kv' => kv.1 ≠ kv'.1 := List.pairwise_map.mp hnd
  apply List.pairwise_map.mpr
  refine (List.Pairwise.and_mem.mp hpw).imp ?_
  exact fun hab => rank_inj_on_five (h _ hab.1) (h _ hab.2.1) hab.2.2

theorem rank_Fajr : rankOfName "Fajr" = 0 := by decide

theorem rank_Dhuhr : rankOfName "Dhuhr" = 1 := by decide

theorem rank_Asr : rankOfName "Asr" = 2 := by decide

theorem rank_Maghrib : rankOfName "Maghrib" = 3 := by decide

theorem rank_Isha : rankOfName "Isha" = 4 := by decide

theorem canonical_pairwise_lt (t : GoTime) (pF pD pA pM pI : Int × Int × Int) :
    (canonicalSchedule t pF pD pA pM pI).Pairwise prayerLt := by
  simp only [canonicalSchedule, List.pairwise_cons, List.mem_cons, List.not_mem_nil,
    or_false, List.mem_singleton, prayerLt]
  refine ⟨?_, ?_, ?_, ?_, ?_, List.Pairwise.nil⟩
  · rintro a (rfl | rfl | rfl | rfl) <;>
      simp only [rank_Fajr, rank_Dhuhr, rank_Asr, rank_Maghrib, rank_Isha] <;> omega
  · rintro a (rfl | rfl | rfl) <;>
      simp only [rank_Fajr, rank_Dhuhr, rank_Asr, rank_Maghrib, rank_Isha] <;> omega
  · rintro a (rfl | rfl) <;>
      simp only [rank_Fajr, rank_Dhuhr, rank_Asr, rank_Maghrib, rank_Isha] <;> omega
  · rintro a rfl
    simp only [rank_Maghrib, rank_Isha]
    omega
  · rintro a h; exact h.elim

theorem parseDay_valid {dob : List (String × String)} {t : GoTime}
    {vF vD vA vM vI : String} {pF pD pA pM pI : Int × Int × Int}
    (hnd : keysNodup dob)
    (hF : ("Fajr", vF) ∈ dob) (hpF : parseTimeStr vF = some pF)
    (hD : ("Dhuhr", vD) ∈ dob) (hpD : parseTimeStr vD = some pD)
    (hA : ("Asr", vA) ∈ dob) (hpA : parseTimeStr vA = some pA)
    (hM : ("Maghrib", vM) ∈ dob) (hpM : parseTimeStr vM = some pM)
    (hI : ("Isha", vI) ∈ dob) (hpI : parseTimeStr vI = some pI) :
    ParseDay dob t = .ok (canonicalSchedule t pF pD pA pM pI) := by
  have hperm := filterPrayers_perm_five hnd hF hD hA hM hI
  have hlen : (FilterPrayers dob).length = 5 := by
    rw [hperm.length_eq]
    rfl
  have hall : ∀ kv ∈ FilterPrayers dob, (parseTimeStr kv.2).isSome := by
    intro kv hkv
    have := hperm.mem_iff.mp hkv
    simp only [List.mem_cons, List.not_mem_nil, or_false] at this
    rcases this with rfl | rfl | rfl | rfl | rfl <;>
      simp [hpF, hpD, hpA, hpM, hpI]
  have hname : ∀ kv ∈ FilterPrayers dob, kv.1 ≠ "" := by
    intro kv hkv
    exact mem_five_ne_empty (mem_filterPrayers hkv).2
  rw [ParseDay, mapToPrayers_ok hlen hall hname]
  congr 1
  apply sortPrayers_eq_of_perm
  · have hmapped : (List.map (prayerFromEntry t)
        [("Fajr", vF), ("Dhuhr", vD), ("Asr", vA), ("Maghrib", vM), ("Isha", vI)])
        = canonicalSchedule t pF pD pA pM pI := by
      simp [prayerFromEntry, canonicalSchedule, hpF, hpD, hpA, hpM, hpI]
    rw [← hmapped]
    exact hperm.map _
  · exact canonical_pairwise_lt t pF pD pA pM pI

theorem keysNodup_filter {dob : List (String × String)} (hnd : keysNodup dob) :
    keysNodup (FilterPrayers dob) := by
  unfold keysNodup at hnd ⊢
  exact hnd.sublist ((List.filter_sublist dob).map Prod.fst)

theorem parseDay_ok_inv {dob : List (String × String)} {t : GoTime} {s : List Prayer}
    (hnd : keysNodup dob) (h : ParseDay dob t = .ok s) :
    (∀ k ∈ fiveNames, ∃ v, (k, v) ∈ dob ∧ (parseTimeStr v).isSome) ∧
      s.length = 5 := by
  rw [ParseDay] at h
  obtain ⟨hlen, hall, hs⟩ := mapToPrayers_ok_inv h
  have hkeys : ∀ kv ∈ FilterPrayers dob, kv.1 ∈ fiveNames :=
    fun kv hkv => (mem_filterPrayers hkv).2
  have hpres := keys_full_of_length_five (keysNodup_filter hnd) hkeys hlen
  constructor
  · intro k hk
    obtain ⟨v, hv⟩ := hpres k hk
    exact ⟨v, (mem_filterPrayers hv).1, hall (k, v) hv⟩
  · rw [hs, sortPrayers, (List.perm_insertionSort prayerLe _).length_eq]
    simp [hlen]

theorem parseDay_ok_shape {dob : List (String × String)} {t : GoTime} {s : List Prayer}
    (hnd : keysNodup dob) (h : ParseDay dob t = .ok s) :
    ∃ pF pD pA pM pI, s = canonicalSchedule t pF pD pA pM pI := by
  obtain ⟨hpres, _⟩ := parseDay_ok_inv hnd h
  obtain ⟨vF, hvF, hsF⟩ := hpres "Fajr" (by decide)
  obtain ⟨vD, hvD, hsD⟩ := hpres "Dhuhr" (by decide)
  obtain ⟨vA, hvA, hsA⟩ := hpres "Asr" (by decide)
  obtain ⟨vM, hvM, hsM⟩ := hpres "Maghrib" (by decide)
  obtain ⟨vI, hvI, hsI⟩ := hpres "Isha" (by decide)
  obtain ⟨pF, hpF⟩ := Option.isSome_iff_exists.mp hsF
  obtain ⟨pD, hpD⟩ := Option.isSome_iff_exists.mp hsD
  obtain ⟨pA, hpA⟩ := Option.isSome_iff_exists.mp hsA
  obtain ⟨pM, hpM⟩ := Option.isSome_iff_exists.mp hsM
  obtain ⟨pI, hpI⟩ := Option.isSome_iff_exists.mp hsI
  have hvalid := @parseDay_valid dob t vF vD vA vM vI pF pD pA pM pI
    hnd hvF hpF hvD hpD hvA hpA hvM hpM hvI hpI
  rw [h] at hvalid
  exact ⟨pF, pD, pA, pM, pI, Except.ok.inj hvalid⟩

/- ------------------------------------------------------------------ -/
/- Claim theorems                                                      -/
/- ------------------------------------------------------------------ -/

/-- C1: for every valid raw month payload (the target date's day entry exists,
its timings map is a well-formed Go map holding each of the five recognized
prayer keys with a parseable time value) Parse returns exactly the five prayer
events Fajr, Dhuhr, Asr, Maghrib, Isha, each exactly once, in the canonical
rank order, with the timestamps determined by the values alone - hence
independent of the payload's key order. -/
theorem parse_canonical_five {month : MonthData} {t : GoTime}
    {dob : List (String × String)} {vF vD vA vM vI : String}
    {pF pD pA pM pI : Int × Int × Int}
    (hday : List.get? month (dayOf t - 1).toNat = some dob)
    (hnd : keysNodup dob)
    (hF : ("Fajr", vF) ∈ dob) (hpF : parseTimeStr vF = some pF)
    (hD : ("Dhuhr", vD) ∈ dob) (hpD : parseTimeStr vD = some pD)
    (hA : ("Asr", vA) ∈ dob) (hpA : parseTimeStr vA = some pA)
    (hM : ("Maghrib", vM) ∈ dob) (hpM : parseTimeStr vM = some pM)
    (hI : ("Isha", vI) ∈ dob) (hpI : parseTimeStr vI = some pI) :
    ParseSchedule month t = .ok (canonicalSchedule t pF pD pA pM pI) := by
  rw [ParseSchedule, hday]
  exact parseDay_valid hnd hF hpF hD hpD hA hpA hM hpM hI hpI

/-- Witness for C1 at the sample payload: every hypothesis holds and the five
events come back in canonical order. -/
theorem parse_canonical_five_witness :
    (List.get? sampleMonth (dayOf sampleNoon - 1).toNat = some sampleDay) ∧
    keysNodup sampleDay ∧
    ("Fajr", "04:30 (+03)") ∈ sampleDay ∧
    parseTimeStr "04:30 (+03)" = some (4, 30, 10800) ∧
    ParseSchedule sampleMonth sampleNoon =
      .ok (canonicalSchedule sampleNoon (4, 30, 10800) (11, 45, 10800) (15, 10, 10800)
        (18, 20, 10800) (19, 50, 10800)) :=
  ⟨by decide, by decide, by decide, by decide,
    @parse_canonical_five sampleMonth sampleNoon sampleDay
      "04:30 (+03)" "11:45 (+03)" "15:10 (+03)" "18:20 (+03)" "19:50 (+03)"
      (4, 30, 10800) (11, 45, 10800) (15, 10, 10800) (18, 20, 10800) (19, 50, 10800)
      (by decide) (by decide)
      (by decide) (by decide) (by decide) (by decide) (by decide) (by decide)
      (by decide) (by decide) (by decide) (by decide)⟩

theorem mapToPrayers_err_parse {m : List (String × String)} {t : GoTime}
    (hlen : m.length ≤ 5) (hbad : ∃ kv ∈ m, parseTimeStr kv.2 = none) :
    MapToPrayers m t = .error .parseFailure := by
  rw [MapToPrayers, mapToPrayersCore_err t m 0 _ (by omega) hbad]
  rfl

theorem mapToPrayers_err_short {m : List (String × String)} {t : GoTime}
    (hall : ∀ kv ∈ m, (parseTimeStr kv.2).isSome) (hlen : m.length < 5) :
    MapToPrayers m t = .error .indexRange := by
  rw [MapToPrayers, mapToPrayersCore_ok t m 0 _ (by omega) hall]
  have hz : zeroPrayer ∈ writeFrom (List.replicate 5 zeroPrayer) 0 (m.map (prayerFromEntry t)) := by
    apply List.get?_mem
    rw [writeFrom_get_ge _ 0 _ 4 (by simp only [Nat.zero_add, List.length_map]; omega)]
    rfl
  exact sortGoCheck_err_of_zero _ hz

theorem sortPrayers_congr_of_perm {m₁ m₂ : List (String × String)} {t : GoTime}
    (hp : m₁.Perm m₂) (hnd : keysNodup m₁) (hk : ∀ kv ∈ m₁, kv.1 ∈ fiveNames) :
    sortPrayers (m₁.map (prayerFromEntry t)) = sortPrayers (m₂.map (prayerFromEntry t)) := by
  apply eq_of_perm_sorted_ranks
  · exact ((List.perm_insertionSort prayerLe _).trans (hp.map _)).trans
      (List.perm_insertionSort prayerLe _).symm
  · exact List.sorted_insertionSort prayerLe _
  · exact List.sorted_insertionSort prayerLe _
  · exact (((List.perm_insertionSort prayerLe _).map _).nodup_iff).mpr
      (ranks_nodup_of_keys hnd hk)

/-- C8: Parse is deterministic: two runs on the same raw payload and date give
identical results (including every timestamp), even though the filtered map's
iteration order is arbitrary.  Two runs over the same Go map are modelled as
two association lists that are permutations of each other. -/
theorem parse_deterministic {dob₁ dob₂ : List (String × String)} {t : GoTime}
    (hperm : dob₁.Perm dob₂) (hnd : keysNodup dob₁) :
    ParseDay dob₁ t = ParseDay dob₂ t := by
  have hFp : (FilterPrayers dob₁).Perm (FilterPrayers dob₂) := hperm.filter _
  have hndF₁ : keysNodup (FilterPrayers dob₁) := keysNodup_filter hnd
  have hk₁ : ∀ kv ∈ FilterPrayers dob₁, kv.1 ∈ fiveNames :=
    fun kv hkv => (mem_filterPrayers hkv).2
  have hle : (FilterPrayers dob₁).length ≤ 5 := keys_length_le_five hndF₁ hk₁
  rw [ParseDay, ParseDay]
  by_cases hbad : ∃ kv ∈ FilterPrayers dob₁, parseTimeStr kv.2 = none
  · obtain ⟨kv, hkv, hnone⟩ := hbad
    rw [mapToPrayers_err_parse hle ⟨kv, hkv, hnone⟩,
      mapToPrayers_err_parse (hFp.length_eq ▸ hle) ⟨kv, hFp.mem_iff.mp hkv, hnone⟩]
  · have hall₁ : ∀ kv ∈ FilterPrayers dob₁, (parseTimeStr kv.2).isSome := by
      intro kv hkv
      rcases hsome : parseTimeStr kv.2 with _ | p
      · exact absurd ⟨kv, hkv, hsome⟩ hbad
      · rfl
    have hall₂ : ∀ kv ∈ FilterPrayers dob₂, (parseTimeStr kv.2).isSome :=
      fun kv hkv => hall₁ kv (hFp.mem_iff.mpr hkv)
    by_cases hfive : (FilterPrayers dob₁).length = 5
    · rw [mapToPrayers_ok hfive hall₁
        (fun kv hkv => mem_five_ne_empty (mem_filterPrayers hkv).2),
        mapToPrayers_ok (hFp.length_eq ▸ hfive) hall₂
        (fun kv hkv => mem_five_ne_empty (mem_filterPrayers hkv).2)]
      exact congrArg Except.ok (sortPrayers_congr_of_perm hFp hndF₁ hk₁)
    · rw [mapToPrayers_err_short hall₁ (by omega),
        mapToPrayers_err_short hall₂ (by rw [← hFp.length_eq]; omega)]

/-- Witness for C8: the sample day object against one of its reorderings. -/
theorem parse_deterministic_witness :
    (sampleDay.Perm
      [("Isha", "19:50 (+03)"), ("Sunrise", "06:00 (+03)"), ("Fajr", "04:30 (+03)"),
       ("Asr", "15:10 (+03)"), ("Maghrib", "18:20 (+03)"), ("Dhuhr", "11:45 (+03)")]) ∧
    keysNodup sampleDay ∧
    ParseDay sampleDay sampleNoon =
      ParseDay
        [("Isha", "19:50 (+03)"), ("Sunrise", "06:00 (+03)"), ("Fajr", "04:30 (+03)"),
         ("Asr", "15:10 (+03)"), ("Maghrib", "18:20 (+03)"), ("Dhuhr", "11:45 (+03)")]
        sampleNoon :=
  ⟨by decide, by decide, parse_deterministic (by decide) (by decide)⟩

/-- C9: Parse fails - returning no result at all - when the target day is
absent from the month payload, when one of the five recognized prayer keys is
missing from the (well-formed) day object, or when a retained time value does
not parse.  (In the source each case is a panic; here each is an error of the
corresponding kind.) -/
theorem parse_fails_on_invalid {month : MonthData} {t : GoTime}
    (h : List.get? month (dayOf t - 1).toNat = none
       ∨ ∃ dob, List.get? month (dayOf t - 1).toNat = some dob ∧ keysNodup dob ∧
           ((∃ k ∈ fiveNames, k ∉ dob.map Prod.fst)
            ∨ ∃ k v, k ∈ fiveNames ∧ (k, v) ∈ dob ∧ parseTimeStr v = none)) :
    ∃ e, ParseSchedule month t = .error e := by
  rcases h with hnone | ⟨dob, hday, hnd, hcase⟩
  · exact ⟨.indexRange, by rw [ParseSchedule, hnone]⟩
  · rcases hcase with ⟨k, hk5, hmiss⟩ | ⟨k, v, hk5, hmem, hbad⟩
    · cases hres : ParseDay dob t with
      | error e =>
        refine ⟨e, ?_⟩
        rw [ParseSchedule, hday]
        exact hres
      | ok s =>
        obtain ⟨hpres, _⟩ := parseDay_ok_inv hnd hres
        obtain ⟨v, hv, _⟩ := hpres k hk5
        exact absurd (List.mem_map_of_mem Prod.fst hv) hmiss
    · have hmemF : (k, v) ∈ FilterPrayers dob := by
        rw [FilterPrayers, List.mem_filter]
        exact ⟨hmem, isPrayerName_iff.mpr hk5⟩
      have hle : (FilterPrayers dob).length ≤ 5 :=
        keys_length_le_five (keysNodup_filter hnd) fun kv hkv => (mem_filterPrayers hkv).2
      refine ⟨.parseFailure, ?_⟩
      rw [ParseSchedule, hday]
      exact mapToPrayers_err_parse hle ⟨(k, v), hmemF, hbad⟩

/-- Witness for C9: the sample day without its Isha entry makes Parse fail. -/
theorem parse_fails_on_invalid_witness :
    (List.get? [sampleDayMissing] (dayOf sampleNoon - 1).toNat = none
      ∨ ∃ dob, List.get? [sampleDayMissing] (dayOf sampleNoon - 1).toNat = some dob ∧
          keysNodup dob ∧
          ((∃ k ∈ fiveNames, k ∉ dob.map Prod.fst)
           ∨ ∃ k v, k ∈ fiveNames ∧ (k, v) ∈ dob ∧ parseTimeStr v = none)) ∧
    ∃ e, ParseSchedule [sampleDayMissing] sampleNoon = .error e := by
  refine ⟨Or.inr ⟨sampleDayMissing, by decide, by decide,
    Or.inl ⟨"Isha", by decide, by decide⟩⟩, ?_⟩
  exact parse_fails_on_invalid
    (Or.inr ⟨sampleDayMissing, by decide, by decide,
      Or.inl ⟨"Isha", by decide, by decide⟩⟩)

theorem mapToPrayersCore_no_oob (t : GoTime) :
    ∀ (l : List (String × String)) (i : Nat) (arr : List Prayer), i + l.length ≤ 5 →
      mapToPrayersCore t l i arr ≠ .error .indexRange := by
  intro l
  induction l with
  | nil => intro i arr _ h; cases h
  | cons kv rest ih =>
    intro i arr hle h
    have hi : i < 5 := by simp only [List.length_cons] at hle; omega
    cases hp : parseTimeStr kv.2 with
    | none => simp only [mapToPrayersCore, hp] at h; cases h
    | some p =>
      simp only [mapToPrayersCore, hp, if_pos hi] at h
      exact ih (i + 1) _ (by simp only [List.length_cons] at hle; omega) h

/-- C10: on any well-formed timings map FilterPrayers keeps only the five
recognized keys with their input values, so at most 5 entries survive and the
MapToPrayers write loop never indexes its fixed 5-slot slice out of range. -/
theorem filterPrayers_safety (pm : List (String × String)) (t : GoTime)
    (hnd : keysNodup pm) :
    (∀ kv ∈ FilterPrayers pm, kv.1 ∈ fiveNames ∧ kv ∈ pm) ∧
    (FilterPrayers pm).length ≤ 5 ∧
    ∀ arr, mapToPrayersCore t (FilterPrayers pm) 0 arr ≠ .error .indexRange := by
  have hk : ∀ kv ∈ FilterPrayers pm, kv.1 ∈ fiveNames ∧ kv ∈ pm := by
    intro kv hkv
    have h := mem_filterPrayers hkv
    exact ⟨h.2, h.1⟩
  have hle : (FilterPrayers pm).length ≤ 5 :=
    keys_length_le_five (keysNodup_filter hnd) fun kv hkv => (hk kv hkv).1
  exact ⟨hk, hle, fun arr => mapToPrayersCore_no_oob t _ 0 arr (by omega)⟩

/-- Witness for C10 at the sample day object. -/
theorem filterPrayers_safety_witness :
    keysNodup sampleDay ∧
    ((∀ kv ∈ FilterPrayers sampleDay, kv.1 ∈ fiveNames ∧ kv ∈ sampleDay) ∧
     (FilterPrayers sampleDay).length ≤ 5 ∧
     ∀ arr, mapToPrayersCore sampleNoon (FilterPrayers sampleDay) 0 arr
        ≠ .error .indexRange) :=
  ⟨by decide, filterPrayers_safety sampleDay sampleNoon (by decide)⟩

theorem nextInList_eq_none {nowNs : Int} {l : List Prayer} :
    nextInList nowNs l = none ↔ ∀ p ∈ l, p.Time ≤ nowNs := by
  induction l with
  | nil => simp [nextInList]
  | cons p rest ih =>
    by_cases hp : nowNs < p.Time
    · rw [nextInList, if_pos hp]
      constructor
      · intro h; cases h
      · intro h
        exact absurd (h p (List.mem_cons_self ..)) (by omega)
    · simp only [nextInList, if_neg hp, ih, List.mem_cons]
      constructor
      · rintro h q (rfl | hq)
        · omega
        · exact h q hq
      · intro h q hq
        exact h q (Or.inr hq)

theorem nextInList_spec {nowNs : Int} {l : List Prayer} {p : Prayer}
    (h : nextInList nowNs l = some p) :
    ∃ i, ∃ hi : i < l.length, p = l.get ⟨i, hi⟩ ∧ nowNs < p.Time ∧
      ∀ j, j < i → ∀ hj : j < l.length, (l.get ⟨j, hj⟩).Time ≤ nowNs := by
  induction l with
  | nil => cases h
  | cons q rest ih =>
    by_cases hq : nowNs < q.Time
    · rw [nextInList, if_pos hq] at h
      refine ⟨0, by simp, ?_, ?_, ?_⟩
      · simpa using (Option.some.inj h).symm
      · exact (Option.some.inj h) ▸ hq
      · intro j hj _; omega
    · rw [nextInList, if_neg hq] at h
      obtain ⟨i, hi, hpi, hlt, hbefore⟩ := ih h
      refine ⟨i + 1, by simpa using hi, by simpa using hpi, hlt, ?_⟩
      intro j hj hjl
      cases j with
      | zero => simpa using (by omega : q.Time ≤ nowNs)
      | succ j' =>
        have := hbefore j' (by omega) (by simpa using hjl)
        simpa using this

/-- C5: when some held event is strictly after now, NextPrayer returns the
first such event in the held (canonical) order with rolledOver = false and
leaves the schedule and the environment untouched; in particular, with now
before the schedule's leading Fajr event it returns that Fajr event. -/
theorem nextPrayer_first_future (now : GoTime) (prayers : List Prayer) (env : Env MonthData) :
    ((∃ p ∈ prayers, now.absNs < p.Time) →
      ∃ i, ∃ hi : i < prayers.length,
        now.absNs < (prayers.get ⟨i, hi⟩).Time ∧
        (∀ j, j < i → ∀ hj : j < prayers.length, (prayers.get ⟨j, hj⟩).Time ≤ now.absNs) ∧
        NextPrayer now prayers env = .ok ((prayers.get ⟨i, hi⟩, false), prayers, env)) ∧
    (∀ f rest, prayers = f :: rest → now.absNs < f.Time →
      NextPrayer now prayers env = .ok ((f, false), prayers, env)) := by
  constructor
  · intro hex
    cases hn : nextInList now.absNs prayers with
    | none =>
      obtain ⟨p, hp, hlt⟩ := hex
      have := nextInList_eq_none.mp hn p hp
      omega
    | some p =>
      obtain ⟨i, hi, hpi, hlt, hbefore⟩ := nextInList_spec hn
      refine ⟨i, hi, by rw [← hpi]; exact hlt, hbefore, ?_⟩
      rw [NextPrayer, hn, ← hpi]
  · rintro f rest rfl hf
    have hn : nextInList now.absNs (f :: rest) = some f := by
      rw [nextInList, if_pos hf]
    rw [NextPrayer, hn]

/-- Witness for C5 at the sample schedule (now one hour before Fajr). -/
theorem nextPrayer_first_future_witness :
    ((∃ p ∈ canonicalSchedule sampleNoon (4, 30, 10800) (11, 45, 10800) (15, 10, 10800)
          (18, 20, 10800) (19, 50, 10800),
        (GoTime.mk ((19875 * 86400 + 3600) * nsPerSecond) 10800).absNs < p.Time) →
      ∃ i, ∃ hi : i < (canonicalSchedule sampleNoon (4, 30, 10800) (11, 45, 10800)
          (15, 10, 10800) (18, 20, 10800) (19, 50, 10800)).length,
        (GoTime.mk ((19875 * 86400 + 3600) * nsPerSecond) 10800).absNs <
          ((canonicalSchedule sampleNoon (4, 30, 10800) (11, 45, 10800) (15, 10, 10800)
            (18, 20, 10800) (19, 50, 10800)).get ⟨i, hi⟩).Time ∧
        (∀ j, j < i → ∀ hj : j < (canonicalSchedule sampleNoon (4, 30, 10800) (11, 45, 10800)
            (15, 10, 10800) (18, 20, 10800) (19, 50, 10800)).length,
          ((canonicalSchedule sampleNoon (4, 30, 10800) (11, 45, 10800) (15, 10, 10800)
            (18, 20, 10800) (19, 50, 10800)).get ⟨j, hj⟩).Time ≤
            (GoTime.mk ((19875 * 86400 + 3600) * nsPerSecond) 10800).absNs) ∧
        NextPrayer (GoTime.mk ((19875 * 86400 + 3600) * nsPerSecond) 10800)
            (canonicalSchedule sampleNoon (4, 30, 10800) (11, 45, 10800) (15, 10, 10800)
              (18, 20, 10800) (19, 50, 10800)) (Env.mk (fun _ => none) (fun _ => ⟨true, 0, []⟩))
          = .ok (((canonicalSchedule sampleNoon (4, 30, 10800) (11, 45, 10800) (15, 10, 10800)
              (18, 20, 10800) (19, 50, 10800)).get ⟨i, hi⟩, false),
            canonicalSchedule sampleNoon (4, 30, 10800) (11, 45, 10800) (15, 10, 10800)
              (18, 20, 10800) (19, 50, 10800),
            Env.mk (fun _ => none) (fun _ => ⟨true, 0, []⟩))) ∧
    (∀ f rest, canonicalSchedule sampleNoon (4, 30, 10800) (11, 45, 10800) (15, 10, 10800)
        (18, 20, 10800) (19, 50, 10800) = f :: rest →
      (GoTime.mk ((19875 * 86400 + 3600) * nsPerSecond) 10800).absNs < f.Time →
      NextPrayer (GoTime.mk ((19875 * 86400 + 3600) * nsPerSecond) 10800)
          (canonicalSchedule sampleNoon (4, 30, 10800) (11, 45, 10800) (15, 10, 10800)
            (18, 20, 10800) (19, 50, 10800)) (Env.mk (fun _ => none) (fun _ => ⟨true, 0, []⟩))
        = .ok ((f, false),
          canonicalSchedule sampleNoon (4, 30, 10800) (11, 45, 10800) (15, 10, 10800)
            (18, 20, 10800) (19, 50, 10800),
          Env.mk (fun _ => none) (fun _ => ⟨true, 0, []⟩))) :=
  nextPrayer_first_future (GoTime.mk ((19875 * 86400 + 3600) * nsPerSecond) 10800)
    (canonicalSchedule sampleNoon (4, 30, 10800) (11, 45, 10800) (15, 10, 10800)
      (18, 20, 10800) (19, 50, 10800)) (Env.mk (fun _ => none) (fun _ => ⟨true, 0, []⟩))

theorem downloadTimings_ok_path {α : Type} {t : GoTime} {env : Env α}
    {path : String} {env₁ : Env α} (h : DownloadTimings t env = .ok (path, env₁)) :
    path = timingsPathFor t := by
  rw [DownloadTimings] at h
  cases hs : env.store (timingsPathFor t) with
  | some raw =>
    rw [hs] at h
    exact (congrArg Prod.fst (Except.ok.inj h)).symm
  | none =>
    rw [hs] at h
    by_cases hf : (env.fetch (requestUrlFor t)).failed
    · rw [if_pos hf] at h; cases h
    · rw [if_neg hf] at h
      exact (congrArg Prod.fst (Except.ok.inj h)).symm

theorem downloadTimings_wf {t : GoTime} {env env₁ : Env MonthData} {path : String}
    (hwf : WfEnv env) (h : DownloadTimings t env = .ok (path, env₁)) : WfEnv env₁ := by
  rw [DownloadTimings] at h
  cases hs : env.store (timingsPathFor t) with
  | some raw =>
    rw [hs] at h
    have h2 : (timingsPathFor t, env) = (path, env₁) := Except.ok.inj h
    injection h2 with h3 h4
    rw [← h4]
    exact hwf
  | none =>
    rw [hs] at h
    by_cases hf : (env.fetch (requestUrlFor t)).failed
    · rw [if_pos hf] at h; cases h
    · rw [if_neg hf] at h
      have h2 : (timingsPathFor t,
          ({ env with store := fun k =>
              if k = timingsPathFor t then some (env.fetch (requestUrlFor t)).body
              else env.store k } : Env MonthData)) = (path, env₁) := Except.ok.inj h
      injection h2 with h3 h4
      rw [← h4]
      constructor
      · intro p pl hp
        simp only at hp
        by_cases hpp : p = timingsPathFor t
        · rw [if_pos hpp] at hp
          exact fun dob hdob => hwf.2 (requestUrlFor t) dob ((Option.some.inj hp) ▸ hdob)
        · rw [if_neg hpp] at hp
          exact hwf.1 p pl hp
      · exact hwf.2

theorem prayerTimings_ok_inv {t : GoTime} {env : Env MonthData}
    {s : List Prayer} {env' : Env MonthData}
    (h : PrayerTimings t env = .ok (s, env')) :
    DownloadTimings t env = .ok (timingsPathFor t, env') ∧
    ∃ payload, env'.store (timingsPathFor t) = some payload ∧
      ParseSchedule payload t = .ok s := by
  rw [PrayerTimings] at h
  cases hd : DownloadTimings t env with
  | error e => rw [hd] at h; cases h
  | ok pe =>
    obtain ⟨path, env₁⟩ := pe
    have hpath : path = timingsPathFor t := downloadTimings_ok_path hd
    subst hpath
    rw [hd] at h
    have h2 : (match env₁.store (timingsPathFor t) with
        | none => (.error .storageFailure : Except GoPanic (List Prayer × Env MonthData))
        | some payload => do
            let sched ← ParseSchedule payload t
            .ok (sched, env₁)) = .ok (s, env') := h
    cases hs : env₁.store (timingsPathFor t) with
    | none => rw [hs] at h2; cases h2
    | some payload =>
      rw [hs] at h2
      have h3 : (do
          let sched ← ParseSchedule payload t
          (.ok (sched, env₁) : Except GoPanic (List Prayer × Env MonthData)))
          = .ok (s, env') := h2
      cases hps : ParseSchedule payload t with
      | error e => rw [hps] at h3; cases h3
      | ok sched =>
        rw [hps] at h3
        have h4 : (sched, env₁) = (s, env') := Except.ok.inj h3
        injection h4 with h5 h6
        subst h5
        subst h6
        exact ⟨rfl, payload, hs, hps⟩

theorem parseSchedule_ok_shape {payload : MonthData} {t : GoTime} {s : List Prayer}
    (hwfp : ∀ dob ∈ payload, keysNodup dob)
    (h : ParseSchedule payload t = .ok s) :
    ∃ pF pD pA pM pI, s = canonicalSchedule t pF pD pA pM pI := by
  rw [ParseSchedule] at h
  cases hday : List.get? payload (dayOf t - 1).toNat with
  | none => rw [hday] at h; cases h
  | some dob =>
    rw [hday] at h
    exact parseDay_ok_shape (hwfp dob (List.get?_mem hday)) h

/-- C6: when every held event is at or before now, NextPrayer computes
tomorrow = now + 1 day, obtains tomorrow's payload through the cache, parses
it, replaces the held schedule with the parsed schedule, and returns its
first event - Fajr - with rolledOver = true; afterwards the held schedule is
exactly Parse(tomorrowPayload, tomorrowDate). -/
theorem nextPrayer_rollover {now : GoTime} {prayers newSched : List Prayer}
    {env env' : Env MonthData}
    (hlen : prayers.length = 5)
    (hall : ∀ p ∈ prayers, p.Time ≤ now.absNs)
    (hrun : PrayerTimings (addOneDay now) env = .ok (newSched, env'))
    (hwf : WfEnv env) :
    NextPrayer now prayers env = .ok ((newSched.head!, true), newSched, env') ∧
    newSched.head!.Name = "Fajr" ∧ newSched.length = 5 ∧
    ∃ payload, env'.store (timingsPathFor (addOneDay now)) = some payload ∧
      ParseSchedule payload (addOneDay now) = .ok newSched := by
  obtain ⟨hd, payload, hsp, hps⟩ := prayerTimings_ok_inv hrun
  have hwf' : WfEnv env' := downloadTimings_wf hwf hd
  have hwfp : ∀ dob ∈ payload, keysNodup dob := hwf'.1 _ payload hsp
  obtain ⟨pF, pD, pA, pM, pI, hshape⟩ := parseSchedule_ok_shape hwfp hps
  subst hshape
  have hn : nextInList now.absNs prayers = none := nextInList_eq_none.mpr hall
  have hcopy : listCopy prayers (canonicalSchedule (addOneDay now) pF pD pA pM pI)
      = canonicalSchedule (addOneDay now) pF pD pA pM pI := by
    rw [listCopy, hlen]
    rw [List.take_of_length_le (by rw [canonicalSchedule]; simp)]
    rw [List.drop_eq_nil_of_le (by rw [hlen, canonicalSchedule]; simp)]
    exact List.append_nil _
  refine ⟨?_, rfl, rfl, payload, hsp, hps⟩
  simp only [NextPrayer, hn]
  rw [hrun]
  show (match listCopy prayers (canonicalSchedule (addOneDay now) pF pD pA pM pI) with
      | [] => (.error .indexRange : Except GoPanic ((Prayer × Bool) × List Prayer × Env MonthData))
      | p :: _ =>
        .ok ((p, true), listCopy prayers (canonicalSchedule (addOneDay now) pF pD pA pM pI), env'))
    = _
  rw [hcopy]
  rfl

theorem sampleEnvRoll_wf : WfEnv sampleEnvRoll := by
  constructor
  · intro p pl hp
    have hp2 : (if p = "./timings-2024-06-02.json" then some sampleMonthTwo else none)
        = some pl := hp
    by_cases hpp : p = "./timings-2024-06-02.json"
    · rw [if_pos hpp] at hp2
      rw [← Option.some.inj hp2]
      decide
    · rw [if_neg hpp] at hp2
      cases hp2
  · intro u dob hdob
    have hdob2 : dob ∈ ([] : MonthData) := hdob
    cases hdob2

/-- Witness for C6: the held 2024-06-01 schedule is exhausted in the evening
and the cached 2024-06-02 payload takes over. -/
theorem nextPrayer_rollover_witness :
    ((canonicalSchedule sampleNoon (4, 30, 10800) (11, 45, 10800) (15, 10, 10800)
        (18, 20, 10800) (19, 50, 10800)).length = 5) ∧
    (∀ p ∈ canonicalSchedule sampleNoon (4, 30, 10800) (11, 45, 10800) (15, 10, 10800)
        (18, 20, 10800) (19, 50, 10800), p.Time ≤ sampleEvening.absNs) ∧
    (PrayerTimings (addOneDay sampleEvening) sampleEnvRoll
      = .ok (canonicalSchedule (addOneDay sampleEvening) (4, 30, 10800) (11, 45, 10800)
          (15, 10, 10800) (18, 20, 10800) (19, 50, 10800), sampleEnvRoll)) ∧
    WfEnv sampleEnvRoll ∧
    (NextPrayer sampleEvening
        (canonicalSchedule sampleNoon (4, 30, 10800) (11, 45, 10800) (15, 10, 10800)
          (18, 20, 10800) (19, 50, 10800)) sampleEnvRoll
      = .ok (((canonicalSchedule (addOneDay sampleEvening) (4, 30, 10800) (11, 45, 10800)
            (15, 10, 10800) (18, 20, 10800) (19, 50, 10800)).head!, true),
          canonicalSchedule (addOneDay sampleEvening) (4, 30, 10800) (11, 45, 10800)
            (15, 10, 10800) (18, 20, 10800) (19, 50, 10800), sampleEnvRoll) ∧
      (canonicalSchedule (addOneDay sampleEvening) (4, 30, 10800) (11, 45, 10800)
          (15, 10, 10800) (18, 20, 10800) (19, 50, 10800)).head!.Name = "Fajr" ∧
      (canonicalSchedule (addOneDay sampleEvening) (4, 30, 10800) (11, 45, 10800)
          (15, 10, 10800) (18, 20, 10800) (19, 50, 10800)).length = 5 ∧
      ∃ payload, sampleEnvRoll.store (timingsPathFor (addOneDay sampleEvening)) = some payload ∧
        ParseSchedule payload (addOneDay sampleEvening)
          = .ok (canonicalSchedule (addOneDay sampleEvening) (4, 30, 10800) (11, 45, 10800)
              (15, 10, 10800) (18, 20, 10800) (19, 50, 10800))) :=
  ⟨by decide, by decide, by rfl, sampleEnvRoll_wf,
    nextPrayer_rollover (by decide) (by decide) (by rfl) sampleEnvRoll_wf⟩

/-- Amended C7: if a NextPrayer call performed a rollover and returned event e
with rolledOver = true, and now is still before e's time, then an immediately
repeated call with the same now returns the same e with rolledOver = false and
changes nothing.  (The extra condition now < e.time is needed: when even the
post-rollover schedule is exhausted - e.g. after a multi-day suspension - the
repeated call rolls over again and reports rolledOver = true, see the
counterexample.) -/
theorem nextPrayer_idempotent_after_rollover {now : GoTime}
    {prayers sched' : List Prayer} {env env' : Env MonthData} {e : Prayer}
    (h1 : NextPrayer now prayers env = .ok ((e, true), sched', env'))
    (hfuture : now.absNs < e.Time) :
    NextPrayer now sched' env' = .ok ((e, false), sched', env') := by
  cases hn : nextInList now.absNs prayers with
  | some p =>
    rw [NextPrayer, hn] at h1
    have h2 := Except.ok.inj h1
    have hfl : false = true := congrArg (fun x => x.1.2) h2
    cases hfl
  | none =>
    simp only [NextPrayer, hn] at h1
    cases hpt : PrayerTimings (addOneDay now) env with
    | error err => rw [hpt] at h1; cases h1
    | ok pe =>
      obtain ⟨ns, env₁⟩ := pe
      rw [hpt] at h1
      have h2 : (match listCopy prayers ns with
          | [] => (.error .indexRange :
              Except GoPanic ((Prayer × Bool) × List Prayer × Env MonthData))
          | p :: _ => .ok ((p, true), listCopy prayers ns, env₁))
          = .ok ((e, true), sched', env') := h1
      cases hlc : listCopy prayers ns with
      | nil => rw [hlc] at h2; cases h2
      | cons p rest =>
        rw [hlc] at h2
        have h3 := Except.ok.inj h2
        have hp : p = e := congrArg (fun x => x.1.1) h3
        have hsch : p :: rest = sched' := congrArg (fun x => x.2.1) h3
        rw [← hsch, ← hp]
        have hn2 : nextInList now.absNs (p :: rest) = some p := by
          rw [nextInList, if_pos (hp.symm ▸ hfuture)]
        rw [NextPrayer, hn2]

/-- Witness for the amended C7, reusing the rollover scenario of C6: after the
rollover to 2024-06-02 the repeated call returns the same Fajr, not rolled
over. -/
theorem nextPrayer_idempotent_after_rollover_witness :
    (NextPrayer sampleEvening
        (canonicalSchedule sampleNoon (4, 30, 10800) (11, 45, 10800) (15, 10, 10800)
          (18, 20, 10800) (19, 50, 10800)) sampleEnvRoll
      = .ok (((canonicalSchedule (addOneDay sampleEvening) (4, 30, 10800) (11, 45, 10800)
            (15, 10, 10800) (18, 20, 10800) (19, 50, 10800)).head!, true),
          canonicalSchedule (addOneDay sampleEvening) (4, 30, 10800) (11, 45, 10800)
            (15, 10, 10800) (18, 20, 10800) (19, 50, 10800), sampleEnvRoll)) ∧
    (sampleEvening.absNs < (canonicalSchedule (addOneDay sampleEvening) (4, 30, 10800)
        (11, 45, 10800) (15, 10, 10800) (18, 20, 10800) (19, 50, 10800)).head!.Time) ∧
    NextPrayer sampleEvening
        (canonicalSchedule (addOneDay sampleEvening) (4, 30, 10800) (11, 45, 10800)
          (15, 10, 10800) (18, 20, 10800) (19, 50, 10800)) sampleEnvRoll
      = .ok (((canonicalSchedule (addOneDay sampleEvening) (4, 30, 10800) (11, 45, 10800)
            (15, 10, 10800) (18, 20, 10800) (19, 50, 10800)).head!, false),
          canonicalSchedule (addOneDay sampleEvening) (4, 30, 10800) (11, 45, 10800)
            (15, 10, 10800) (18, 20, 10800) (19, 50, 10800), sampleEnvRoll) :=
  ⟨by rfl, by decide,
    @nextPrayer_idempotent_after_rollover sampleEvening
      (canonicalSchedule sampleNoon (4, 30, 10800) (11, 45, 10800) (15, 10, 10800)
        (18, 20, 10800) (19, 50, 10800))
      (canonicalSchedule (addOneDay sampleEvening) (4, 30, 10800) (11, 45, 10800)
        (15, 10, 10800) (18, 20, 10800) (19, 50, 10800))
      sampleEnvRoll sampleEnvRoll
      ((canonicalSchedule (addOneDay sampleEvening) (4, 30, 10800) (11, 45, 10800)
        (15, 10, 10800) (18, 20, 10800) (19, 50, 10800)).head!)
      (by rfl) (by decide)⟩

/-- Counterexample to C7 as stated: with the held 2024-06-01 schedule
exhausted and now so late that even tomorrow's (2024-06-11, +12 zone) events
are all past, the first call rolls over and returns tomorrow's Fajr with
rolledOver = true - and the immediately repeated call with the same now rolls
over AGAIN to the same date, returning the same event with rolledOver = true,
not false as the claim demands. -/
theorem nextPrayer_double_rollover :
    NextPrayer sampleLateNow
        (canonicalSchedule sampleNoon (4, 30, 10800) (11, 45, 10800) (15, 10, 10800)
          (18, 20, 10800) (19, 50, 10800)) sampleEnvLate
      = .ok (((canonicalSchedule (addOneDay sampleLateNow) (4, 30, 43200) (11, 45, 43200)
            (15, 10, 43200) (18, 20, 43200) (19, 50, 43200)).head!, true),
          canonicalSchedule (addOneDay sampleLateNow) (4, 30, 43200) (11, 45, 43200)
            (15, 10, 43200) (18, 20, 43200) (19, 50, 43200), sampleEnvLate) ∧
    NextPrayer sampleLateNow
        (canonicalSchedule (addOneDay sampleLateNow) (4, 30, 43200) (11, 45, 43200)
          (15, 10, 43200) (18, 20, 43200) (19, 50, 43200)) sampleEnvLate
      = .ok (((canonicalSchedule (addOneDay sampleLateNow) (4, 30, 43200) (11, 45, 43200)
            (15, 10, 43200) (18, 20, 43200) (19, 50, 43200)).head!, true),
          canonicalSchedule (addOneDay sampleLateNow) (4, 30, 43200) (11, 45, 43200)
            (15, 10, 43200) (18, 20, 43200) (19, 50, 43200), sampleEnvLate) :=
  ⟨rfl, rfl⟩

theorem durRound_second_bounds {d v : Int} (hv : 0 < v)
    (h : durRound d nsPerSecond = v) :
    v - 500000000 ≤ d ∧ d < v + 500000000 := by
  unfold durRound nsPerSecond at h
  split_ifs at h <;> omega

theorem durRound_second_eq {d v : Int} (hv : 0 < v) (hmul : v % 1000000000 = 0)
    (h1 : v - 500000000 ≤ d) (h2 : d < v + 500000000) :
    durRound d nsPerSecond = v := by
  unfold durRound nsPerSecond
  split_ifs <;> omega

/-- Amended C2: with remaining = nextEvent.time - now rounded to whole
seconds, a tick fires the pre-reminder exactly when remaining equals the
configured lead time (5 minutes) and the arrival notification exactly when
remaining equals ONE second (the source tests rem == time.Second, not zero);
nothing fires at any other remaining.  Across a 1 Hz tick sequence each of the
two notifications fires at most once for a fixed next event. -/
theorem tick_fires_at_lead_and_one_second (npT now : Int) (k : Nat) :
    ((tickNotifications npT now).pre = true ↔
      durRound (npT - now) nsPerSecond = remindBefore) ∧
    ((tickNotifications npT now).arrival = true ↔
      durRound (npT - now) nsPerSecond = nsPerSecond) ∧
    ((tickNotifications npT now).pre = true →
      (tickNotifications npT (now + (k : Int) * nsPerSecond)).pre = true → k = 0) ∧
    ((tickNotifications npT now).arrival = true →
      (tickNotifications npT (now + (k : Int) * nsPerSecond)).arrival = true → k = 0) := by
  refine ⟨by simp [tickNotifications], by simp [tickNotifications], ?_, ?_⟩
  · intro h1 h2
    simp only [tickNotifications, decide_eq_true_eq] at h1 h2
    have b1 := durRound_second_bounds (by norm_num [remindBefore, nsPerSecond]) h1
    have b2 := durRound_second_bounds (by norm_num [remindBefore, nsPerSecond]) h2
    simp only [remindBefore, nsPerSecond] at b1 b2
    omega
  · intro h1 h2
    simp only [tickNotifications, decide_eq_true_eq] at h1 h2
    have b1 := durRound_second_bounds (by norm_num [nsPerSecond]) h1
    have b2 := durRound_second_bounds (by norm_num [nsPerSecond]) h2
    simp only [nsPerSecond] at b1 b2
    omega

/-- Witness for the amended C2 at remaining exactly 5 minutes and exactly one
second (k = 0 tick shift). -/
theorem tick_fires_witness :
    (((tickNotifications (300 * nsPerSecond) 0).pre = true ↔
        durRound (300 * nsPerSecond - 0) nsPerSecond = remindBefore) ∧
      ((tickNotifications (300 * nsPerSecond) 0).arrival = true ↔
        durRound (300 * nsPerSecond - 0) nsPerSecond = nsPerSecond) ∧
      ((tickNotifications (300 * nsPerSecond) 0).pre = true →
        (tickNotifications (300 * nsPerSecond) (0 + ((0 : Nat) : Int) * nsPerSecond)).pre
          = true → (0 : Nat) = 0) ∧
      ((tickNotifications (300 * nsPerSecond) 0).arrival = true →
        (tickNotifications (300 * nsPerSecond) (0 + ((0 : Nat) : Int) * nsPerSecond)).arrival
          = true → (0 : Nat) = 0)) ∧
    (tickNotifications (300 * nsPerSecond) 0).pre = true ∧
    (tickNotifications (1 * nsPerSecond) 0).arrival = true :=
  ⟨tick_fires_at_lead_and_one_second (300 * nsPerSecond) 0 0, by decide, by decide⟩

/-- Counterexample to C2 as stated: at the tick where remaining rounds to
ZERO seconds (0.4 s before Fajr) no notification fires at all - the arrival
sound is triggered at remaining == one second, not zero. -/
theorem tick_no_arrival_at_zero_remaining :
    TickGui sampleJustBefore
        (canonicalSchedule sampleNoon (4, 30, 10800) (11, 45, 10800) (15, 10, 10800)
          (18, 20, 10800) (19, 50, 10800)) sampleEnvEmpty
      = .ok ((⟨false, false⟩,
          ⟨"Fajr", timeFromParts sampleNoon (4, 30, 10800)⟩, false),
          canonicalSchedule sampleNoon (4, 30, 10800) (11, 45, 10800) (15, 10, 10800)
            (18, 20, 10800) (19, 50, 10800), sampleEnvEmpty) ∧
    durRound (timeFromParts sampleNoon (4, 30, 10800) - sampleJustBefore.absNs) nsPerSecond
      = 0 :=
  ⟨rfl, by decide⟩

/-- C3: DownloadTimings with a cache hit for the date's key returns without
touching the network (the result does not depend on the fetch oracle at all
and the store is unchanged); on a miss with a working transport it requests
the month URL built from the date and the configured latitude, longitude and
method, persists the response body verbatim under the date's key - other keys
untouched - and that entry is what the caller then reads. -/
theorem downloadTimings_cache_contract {α : Type} (t : GoTime) (env : Env α) :
    ((∃ raw, env.store (timingsPathFor t) = some raw) →
      DownloadTimings t env = .ok (timingsPathFor t, env) ∧
      ∀ f2 : String → FetchResult α,
        DownloadTimings t ⟨env.store, f2⟩ = .ok (timingsPathFor t, ⟨env.store, f2⟩)) ∧
    (env.store (timingsPathFor t) = none →
      (env.fetch (requestUrlFor t)).failed = false →
      ∃ env', DownloadTimings t env = .ok (timingsPathFor t, env') ∧
        env'.store (timingsPathFor t) = some (env.fetch (requestUrlFor t)).body ∧
        (∀ k2, k2 ≠ timingsPathFor t → env'.store k2 = env.store k2) ∧
        env'.fetch = env.fetch) := by
  constructor
  · rintro ⟨raw, hraw⟩
    constructor
    · rw [DownloadTimings, hraw]
    · intro f2
      have hraw2 : (Env.mk env.store f2).store (timingsPathFor t) = some raw := hraw
      rw [DownloadTimings, hraw2]
  · intro hmiss hok
    refine ⟨⟨fun k => if k = timingsPathFor t then some (env.fetch (requestUrlFor t)).body
        else env.store k, env.fetch⟩, ?_, ?_, ?_, rfl⟩
    · rw [DownloadTimings, hmiss]
      rw [if_neg (by rw [hok]; exact Bool.false_ne_true)]
    · exact if_pos rfl
    · intro k2 hk2
      exact if_neg hk2

/-- Witness for C3: a hit environment is returned untouched whatever the
fetch does, and a miss environment gets exactly the fetched body stored under
the date key. -/
theorem downloadTimings_cache_contract_witness :
    ((∃ raw, (Env.mk (α := String)
          (fun k => if k = "./timings-2024-06-01.json" then some "CACHED" else none)
          (fun _ => ⟨false, 200, "BODY"⟩)).store (timingsPathFor sampleNoon) = some raw) →
      DownloadTimings sampleNoon (Env.mk
          (fun k => if k = "./timings-2024-06-01.json" then some "CACHED" else none)
          (fun _ => ⟨false, 200, "BODY"⟩))
        = .ok (timingsPathFor sampleNoon, Env.mk
          (fun k => if k = "./timings-2024-06-01.json" then some "CACHED" else none)
          (fun _ => ⟨false, 200, "BODY"⟩)) ∧
      ∀ f2 : String → FetchResult String,
        DownloadTimings sampleNoon
            ⟨(Env.mk (α := String)
              (fun k => if k = "./timings-2024-06-01.json" then some "CACHED" else none)
              (fun _ => ⟨false, 200, "BODY"⟩)).store, f2⟩
          = .ok (timingsPathFor sampleNoon, ⟨(Env.mk (α := String)
              (fun k => if k = "./timings-2024-06-01.json" then some "CACHED" else none)
              (fun _ => ⟨false, 200, "BODY"⟩)).store, f2⟩)) ∧
    ((∃ raw, (Env.mk (α := String)
          (fun k => if k = "./timings-2024-06-01.json" then some "CACHED" else none)
          (fun _ => ⟨false, 200, "BODY"⟩)).store (timingsPathFor sampleNoon) = some raw) ∧
      (Env.mk (α := String) (fun _ => none) (fun _ => ⟨false, 200, "BODY"⟩)).store
        (timingsPathFor sampleNoon) = none ∧
      ((Env.mk (α := String) (fun _ => none)
          (fun _ => ⟨false, 200, "BODY"⟩)).fetch (requestUrlFor sampleNoon)).failed = false ∧
      ∃ env', DownloadTimings sampleNoon
          (Env.mk (α := String) (fun _ => none) (fun _ => ⟨false, 200, "BODY"⟩))
          = .ok (timingsPathFor sampleNoon, env') ∧
        env'.store (timingsPathFor sampleNoon)
          = some ((Env.mk (α := String) (fun _ => none)
              (fun _ => ⟨false, 200, "BODY"⟩)).fetch (requestUrlFor sampleNoon)).body ∧
        (∀ k2, k2 ≠ timingsPathFor sampleNoon →
          env'.store k2 = (Env.mk (α := String) (fun _ => none)
            (fun _ => ⟨false, 200, "BODY"⟩)).store k2) ∧
        env'.fetch = (Env.mk (α := String) (fun _ => none)
          (fun _ => ⟨false, 200, "BODY"⟩)).fetch) :=
  ⟨(downloadTimings_cache_contract sampleNoon _).1,
    ⟨"CACHED", by rfl⟩, rfl, rfl,
    (downloadTimings_cache_contract sampleNoon _).2 rfl rfl⟩

/-- C4 is violated by the code (code bug): http.Get only returns a transport
error for network failures, and DownloadTimings never inspects the status
code, so a non-success (HTTP 500) response is NOT a FetchError - its body is
persisted verbatim under the date's key and returned as the payload. -/
theorem downloadTimings_persists_non_success :
    ∃ env', DownloadTimings sampleNoon
        (Env.mk (α := String) (fun _ => none)
          (fun _ => ⟨false, 500, "Internal Server Error"⟩))
      = .ok ("./timings-2024-06-01.json", env') ∧
      env'.store "./timings-2024-06-01.json" = some "Internal Server Error" :=
  ⟨_, rfl, rfl⟩
